import Mathlib

/-!
# Verification of the `product` package of Vennela0297/productcatalog

Shallow embedding of `src/product/productcatalog.go` into Lean 4.

Modelling conventions:
* Go `int` is modelled as `Int` (overflow plays no role in the verified
  properties); Go `float64` (`Price`, `TotalValue`) is modelled as `ℚ` —
  the concrete values appearing in the claims (10, 20, 40, …) are exact
  in binary floating point, so rational arithmetic agrees with `float64`
  on every computation the claims mention.
* A Go `map[int]Product` is modelled as an association list
  `List (Int × Product)` with the usual lookup / upsert / delete
  operations; the list order stands in for Go's (unspecified) map
  iteration order.
* Each distinct `errors.New` value of the package becomes a constructor
  of the inductive type `PErr`; distinctness of the Go error values is
  constructor disjointness.
* Methods that mutate their receiver (`Sell`, `Restock`, `UpdatePrice`,
  `Delete`, …) become functions returning the updated value, paired with
  the returned `error` (`Option PErr`, `none` = Go `nil`).
* The random draws of `MockDatabaseStorage` and `ExternalAPI`
  (`rand.Float32() < 0.1`, `rand.Intn`) are passed as explicit inputs;
  `time.Sleep` has no observable effect in the sequential semantics and
  is dropped.
-/

namespace ProductCatalog

/-- The `errors.New` values declared at the top of `productcatalog.go`. -/
inductive PErr where
  | insufficientStock
  | productNotFound
  | productAlreadyExists
  | apiRequestFailed
  | failedToSaveProduct
  | failedToGetProduct
  | failedToDeleteProduct
  | failedToFetchProductDetails
  deriving DecidableEq, Repr

/-- Go `type Product struct {ID int; Name string; Price float64; Quantity int; Category string}`. -/
structure Product where
  ID : Int
  Name : String
  Price : ℚ
  Quantity : Int
  Category : String
  deriving DecidableEq, Repr

/-! ## Association-list model of Go `map[int]Product` -/

/-- Lookup `m[k]` with the `, ok` idiom: `some v` when the key is present. -/
def lookupM : List (Int × Product) → Int → Option Product
  | [], _ => none
  | (k', v) :: rest, k => if k' = k then some v else lookupM rest k

/-- Assignment `m[k] = v`: upsert — replaces the binding when `k` is present, appends it otherwise. -/
def insertM : List (Int × Product) → Int → Product → List (Int × Product)
  | [], k, v => [(k, v)]
  | (k', v') :: rest, k, v =>
      if k' = k then (k, v) :: rest else (k', v') :: insertM rest k v

/-- Go `delete(m, k)`: removes the binding of `k` (all of them, keys being unique in a map). -/
def eraseM : List (Int × Product) → Int → List (Int × Product)
  | [], _ => []
  | (k', v') :: rest, k =>
      if k' = k then eraseM rest k else (k', v') :: eraseM rest k

@[simp] theorem lookupM_nil (k : Int) : lookupM [] k = none := rfl

@[simp] theorem lookupM_cons (k' : Int) (v : Product) (rest : List (Int × Product)) (k : Int) :
    lookupM ((k', v) :: rest) k = if k' = k then some v else lookupM rest k := rfl

theorem lookupM_insertM_self (m : List (Int × Product)) (k : Int) (v : Product) :
    lookupM (insertM m k v) k = some v := by
  induction m with
  | nil => simp [insertM]
  | cons e rest ih =>
      obtain ⟨k', v'⟩ := e
      by_cases h : k' = k <;> simp [insertM, h, ih]

theorem lookupM_insertM_ne (m : List (Int × Product)) (k : Int) (v : Product)
    (k₂ : Int) (hne : k₂ ≠ k) : lookupM (insertM m k v) k₂ = lookupM m k₂ := by
  have hne' : k ≠ k₂ := Ne.symm hne
  induction m with
  | nil => simp [insertM, hne']
  | cons e rest ih =>
      obtain ⟨k', v'⟩ := e
      by_cases h : k' = k
      · subst h
        simp [insertM, hne']
      · by_cases h2 : k' = k₂ <;> simp [insertM, h, h2, ih, hne', hne]

theorem lookupM_eraseM_self (m : List (Int × Product)) (k : Int) :
    lookupM (eraseM m k) k = none := by
  induction m with
  | nil => simp [eraseM]
  | cons e rest ih =>
      obtain ⟨k', v'⟩ := e
      by_cases h : k' = k <;> simp [eraseM, h, ih]

theorem lookupM_eraseM_ne (m : List (Int × Product)) (k : Int)
    (k₂ : Int) (hne : k₂ ≠ k) : lookupM (eraseM m k) k₂ = lookupM m k₂ := by
  have hne' : k ≠ k₂ := Ne.symm hne
  induction m with
  | nil => simp [eraseM]
  | cons e rest ih =>
      obtain ⟨k', v'⟩ := e
      by_cases h : k' = k
      · subst h
        simp [eraseM, hne', ih]
      · by_cases h2 : k' = k₂ <;> simp [eraseM, h, h2, ih, hne', hne]

/-! ## Product methods (`UpdatePrice`, `Sell`, `Restock`) -/

/-- Go `func (p *Product) UpdatePrice(newPrice float64) { p.Price = newPrice }` -/
def Product.UpdatePrice (p : Product) (newPrice : ℚ) : Product :=
  { p with Price := newPrice }

/-- Go `func (p *Product) Sell(quantity int) error`:
    returns `ErrInsufficientStock` when `p.Quantity < quantity`,
    otherwise `p.Quantity -= quantity` and returns `nil`. -/
def Product.Sell (p : Product) (quantity : Int) : Product × Option PErr :=
  if p.Quantity < quantity then (p, some .insufficientStock)
  else ({ p with Quantity := p.Quantity - quantity }, none)

/-- Go `func (p *Product) Restock(quantity int) { p.Quantity += quantity }` -/
def Product.Restock (p : Product) (quantity : Int) : Product :=
  { p with Quantity := p.Quantity + quantity }

/-! ## Inventory -/

/-- Go `type Inventory struct { Products map[int]Product }`. -/
structure Inventory where
  Products : List (Int × Product)
  deriving DecidableEq, Repr

/-- Go `func (i *Inventory) AddProduct(p Product) error`:
    returns `ErrProductAlreadyExists` when `p.ID` is already a key,
    otherwise `i.Products[p.ID] = p`. -/
def Inventory.AddProduct (i : Inventory) (p : Product) : Inventory × Option PErr :=
  match lookupM i.Products p.ID with
  | some _ => (i, some .productAlreadyExists)
  | none => (⟨insertM i.Products p.ID p⟩, none)

/-- Go `func (i *Inventory) RemoveProduct(id int) error`:
    returns `ErrProductNotFound` when `id` is absent, otherwise deletes it. -/
def Inventory.RemoveProduct (i : Inventory) (id : Int) : Inventory × Option PErr :=
  match lookupM i.Products id with
  | none => (i, some .productNotFound)
  | some _ => (⟨eraseM i.Products id⟩, none)

/-- Go `func (i *Inventory) FindProductByName(name string) (*Product, error)`:
    linear scan `for _, p := range i.Products`; returns `&p` (a pointer to
    the range-variable *copy* of the entry, see `findProductByNameRef`
    below) at the first name match, else `ErrProductNotFound`. -/
def Inventory.FindProductByName (i : Inventory) (name : String) :
    Option Product × Option PErr :=
  match (i.Products.map Prod.snd).find? (fun p => p.Name = name) with
  | some p => (some p, none)
  | none => (none, some .productNotFound)

/-- Go `func (i *Inventory) ListByCategory(category string) []Product`:
    appends, in iteration order, every product whose `Category` equals the
    argument. -/
def Inventory.ListByCategory (i : Inventory) (category : String) : List Product :=
  (i.Products.map Prod.snd).filter (fun p => p.Category = category)

/-- Go `func (i *Inventory) TotalValue() float64`:
    running-total loop `total += p.Price * float64(p.Quantity)` starting
    from `0`. -/
def Inventory.TotalValue (i : Inventory) : ℚ :=
  (i.Products.map Prod.snd).foldl (fun total p => total + p.Price * (p.Quantity : ℚ)) 0

/-! ## MemoryStorage -/

/-- Go `type MemoryStorage struct { sync.Mutex; Products map[int]Product }`.
    The mutex only serializes the operations; in the sequential semantics
    of one call at a time it has no observable effect and is dropped. -/
structure MemoryStorage where
  Products : List (Int × Product)
  deriving DecidableEq, Repr

/-- Go `func (m *MemoryStorage) Save(p Product) error`: unconditional upsert
    `m.Products[p.ID] = p`, always returns `nil`. -/
def MemoryStorage.Save (m : MemoryStorage) (p : Product) : MemoryStorage × Option PErr :=
  (⟨insertM m.Products p.ID p⟩, none)

/-- Go `func (m *MemoryStorage) GetByID(id int) (*Product, error)`: returns a
    pointer to a copy of the entry when present (see `getByIDRef` below),
    else `ErrProductNotFound`. The receiver is never modified. -/
def MemoryStorage.GetByID (m : MemoryStorage) (id : Int) : Option Product × Option PErr :=
  match lookupM m.Products id with
  | some p => (some p, none)
  | none => (none, some .productNotFound)

/-- Go `func (m *MemoryStorage) Delete(id int) error`: `ErrProductNotFound`
    when absent, else `delete(m.Products, id)`. -/
def MemoryStorage.Delete (m : MemoryStorage) (id : Int) : MemoryStorage × Option PErr :=
  match lookupM m.Products id with
  | none => (m, some .productNotFound)
  | some _ => (⟨eraseM m.Products id⟩, none)

/-! ## MockDatabaseStorage

`MockDatabaseStorage` sleeps `rand.Intn(3)` seconds and then draws
`rand.Float32() < 0.1`. The sleep is unobservable; the failure draw is
passed in as the explicit boolean `failDraw` (`true` = the `< 0.1`
comparison succeeded). -/

/-- Go `type MockDatabaseStorage struct { sync.Mutex; store map[int]Product }`. -/
structure MockDatabaseStorage where
  store : List (Int × Product)
  deriving DecidableEq, Repr

/-- Go `func (mds *MockDatabaseStorage) Save(p Product) error` with the
    failure draw explicit: on a triggered draw returns
    `ErrFailedToSaveProduct` without touching the store; otherwise upserts. -/
def MockDatabaseStorage.Save (mds : MockDatabaseStorage) (p : Product)
    (failDraw : Bool) : MockDatabaseStorage × Option PErr :=
  if failDraw then (mds, some .failedToSaveProduct)
  else (⟨insertM mds.store p.ID p⟩, none)

/-- Go `func (mds *MockDatabaseStorage) GetByID(id int) (*Product, error)` with
    the failure draw explicit: the draw is checked *before* existence; the
    receiver is returned unchanged in every case (the Go method never
    writes `mds.store`). -/
def MockDatabaseStorage.GetByID (mds : MockDatabaseStorage) (id : Int)
    (failDraw : Bool) : MockDatabaseStorage × Option Product × Option PErr :=
  if failDraw then (mds, none, some .failedToGetProduct)
  else
    match lookupM mds.store id with
    | some p => (mds, some p, none)
    | none => (mds, none, some .productNotFound)

/-- Go `func (mds *MockDatabaseStorage) Delete(id int) error` with the failure
    draw explicit: the draw is checked *before* existence; only when it
    does not trigger does the normal not-found/delete logic run. -/
def MockDatabaseStorage.Delete (mds : MockDatabaseStorage) (id : Int)
    (failDraw : Bool) : MockDatabaseStorage × Option PErr :=
  if failDraw then (mds, some .failedToDeleteProduct)
  else
    match lookupM mds.store id with
    | none => (mds, some .productNotFound)
    | some _ => (⟨eraseM mds.store id⟩, none)

/-! ## ExternalAPI / concurrent fetch -/

/-- The random draws consumed by one `FetchProductDetails` call:
    the outcome of `rand.Float32() < 0.1` and the two `rand.Intn(100)`
    draws for price and quantity (values in `0..99`, enforced by `% 100`). -/
structure FetchDraw where
  fail : Bool
  priceDraw : Nat
  qtyDraw : Nat
  deriving DecidableEq, Repr

/-- Go `func (api *ExternalAPI) FetchProductDetails(id int) (*Product, error)`:
    after the (unobservable) sleep, fails with
    `ErrFailedToFetchProductDetails` when the draw triggers; otherwise
    synthesizes `Product{ID: id, Name: "Product <id>", Price: rand.Intn(100),
    Quantity: rand.Intn(100), Category: "Category"}`. -/
def FetchProductDetails (id : Int) (d : FetchDraw) : Option Product :=
  if d.fail then none
  else some
    { ID := id
      Name := "Product " ++ toString id
      Price := ((d.priceDraw % 100 : Nat) : ℚ)
      Quantity := ((d.qtyDraw % 100 : Nat) : Int)
      Category := "Category" }

/-- Go `func FetchProductsConcurrently(api *ExternalAPI, ids []int) []*Product`:
    one goroutine per id calls `FetchProductDetails`; successes go to the
    `results` channel, failures to the discarded `errors` channel; after the
    `WaitGroup` barrier the successes are drained into the returned slice.
    The per-id draws are the explicit oracle `draws`; the channel receives
    successes in completion order, which is unspecified — this model fixes
    input order as the representative order, and every property proved
    about it below is order-insensitive (lengths, counts, membership). -/
def FetchProductsConcurrently (draws : Int → FetchDraw) (ids : List Int) : List Product :=
  ids.filterMap (fun id => FetchProductDetails id (draws id))

/-! ## Sequences of Product mutations (for the Quantity invariant) -/

/-- One call to a `Product` mutation primitive, with its argument. -/
inductive ProdOp where
  | sell (n : Int)
  | restock (n : Int)
  | updatePrice (x : ℚ)
  deriving DecidableEq, Repr

/-- The state transition of one primitive call (the `error` returned by
    `Sell` does not affect the receiver's state). -/
def applyOp (p : Product) : ProdOp → Product
  | .sell n => (p.Sell n).1
  | .restock n => p.Restock n
  | .updatePrice x => p.UpdatePrice x

/-- The state after a sequence of primitive calls, first call first. -/
def applyOps (ops : List ProdOp) (p : Product) : Product :=
  ops.foldl applyOp p

/-! ## Observing Go pointer semantics of the lookups

`FindProductByName` returns `&p` where `p` is the `range` variable — a
copy of the map entry — and `MemoryStorage.GetByID` returns `&p` where
`p` is the copy bound by `if p, ok := m.Products[id]`. Go map entries are
not addressable, so the returned pointer can only refer to a fresh cell
holding a copy. The model makes that cell explicit: program state is the
container plus a heap of `Product` cells (addresses = indices), a lookup
allocates a fresh cell holding the copy, and writing through the returned
pointer updates that cell only. -/

/-- Inventory together with the heap of pointed-to `Product` cells. -/
structure InvPtrState where
  inv : Inventory
  heap : List Product
  deriving DecidableEq, Repr

/-- The lookup `FindProductByName` observed at the pointer level: on a hit, `&p`
    denotes a fresh cell holding the copy `p` of the matching entry. -/
def findProductByNameRef (s : InvPtrState) (name : String) : Option Nat × InvPtrState :=
  match (s.inv.FindProductByName name).1 with
  | none => (none, s)
  | some p => (some s.heap.length, ⟨s.inv, s.heap ++ [p]⟩)

/-- Write `*r = q`: mutation through a returned pointer. -/
def writeInvRef (s : InvPtrState) (r : Nat) (q : Product) : InvPtrState :=
  ⟨s.inv, s.heap.set r q⟩

/-- MemoryStorage together with the heap of pointed-to `Product` cells. -/
structure StorePtrState where
  mem : MemoryStorage
  heap : List Product
  deriving DecidableEq, Repr

/-- The lookup `MemoryStorage.GetByID` observed at the pointer level: on a hit, `&p`
    denotes a fresh cell holding the copy `p` of the stored entry. -/
def getByIDRef (s : StorePtrState) (id : Int) : Option Nat × StorePtrState :=
  match (s.mem.GetByID id).1 with
  | none => (none, s)
  | some p => (some s.heap.length, ⟨s.mem, s.heap ++ [p]⟩)

/-- Write `*r = q` against the storage-lookup heap. -/
def writeStoreRef (s : StorePtrState) (r : Nat) (q : Product) : StorePtrState :=
  ⟨s.mem, s.heap.set r q⟩

/-- Well-formedness of an `Inventory` as maintained by `AddProduct` /
    `RemoveProduct`: keys are distinct and every entry is stored under the
    `ID` of its product. -/
def Inventory.WF (i : Inventory) : Prop :=
  (i.Products.map Prod.fst).Nodup ∧ ∀ e ∈ i.Products, e.2.ID = e.1

instance (i : Inventory) : Decidable i.WF :=
  inferInstanceAs (Decidable ((i.Products.map Prod.fst).Nodup ∧ ∀ e ∈ i.Products, e.2.ID = e.1))

/-! # Theorems for the claims -/

/-- Erasing a key only drops entries, it never invents one. -/
theorem mem_eraseM (m : List (Int × Product)) (k : Int) (e : Int × Product)
    (h : e ∈ eraseM m k) : e ∈ m := by
  induction m with
  | nil => simp [eraseM] at h
  | cons a rest ih =>
      obtain ⟨k', v'⟩ := a
      by_cases hk : k' = k
      · simp only [eraseM, hk, if_pos rfl] at h
        exact List.mem_cons_of_mem _ (ih h)
      · simp only [eraseM, if_neg hk, List.mem_cons] at h
        rcases h with h | h
        · exact h ▸ List.mem_cons_self _ _
        · exact List.mem_cons_of_mem _ (ih h)

/-- A lookup misses exactly when the key is not among the stored keys. -/
theorem lookupM_eq_none_iff (m : List (Int × Product)) (k : Int) :
    lookupM m k = none ↔ k ∉ m.map Prod.fst := by
  induction m with
  | nil => simp
  | cons a rest ih =>
      obtain ⟨k', v'⟩ := a
      by_cases hk : k' = k
      · subst hk
        simp
      · have hk2 : ¬ k = k' := fun h => hk h.symm
        simp [hk, hk2, ih]

/-- Inserting a fresh key appends the new entry at the end. -/
theorem insertM_of_not_mem (m : List (Int × Product)) (k : Int) (v : Product)
    (h : lookupM m k = none) : insertM m k v = m ++ [(k, v)] := by
  induction m with
  | nil => simp [insertM]
  | cons a rest ih =>
      obtain ⟨k', v'⟩ := a
      by_cases hk : k' = k
      · simp [hk] at h
      · simp only [lookupM_cons, if_neg hk] at h
        simp [insertM, hk, ih h]

/-- Erasing a key preserves distinctness of the stored keys. -/
theorem nodup_keys_eraseM (m : List (Int × Product)) (k : Int)
    (h : (m.map Prod.fst).Nodup) : ((eraseM m k).map Prod.fst).Nodup := by
  induction m with
  | nil => simp [eraseM]
  | cons a rest ih =>
      obtain ⟨k', v'⟩ := a
      simp only [List.map_cons, List.nodup_cons] at h
      by_cases hk : k' = k
      · simp [eraseM, hk, ih h.2]
      · simp only [eraseM, if_neg hk, List.map_cons, List.nodup_cons]
        refine ⟨?_, ih h.2⟩
        intro hmem
        obtain ⟨e, he, heq⟩ := List.mem_map.mp hmem
        exact h.1 (List.mem_map.mpr ⟨e, mem_eraseM _ _ _ he, heq⟩)

/-- Every inventory reachable through the API is well-formed: the zero
    value is, and `AddProduct` / `RemoveProduct` preserve well-formedness
    (this grounds the `WF` hypothesis of the `ListByCategory` theorem). -/
theorem wf_invariant :
    (Inventory.mk []).WF ∧
    (∀ (i : Inventory) (p : Product), i.WF → ((i.AddProduct p).1).WF) ∧
    (∀ (i : Inventory) (id : Int), i.WF → ((i.RemoveProduct id).1).WF) := by
  refine ⟨⟨by simp, by simp⟩, ?_, ?_⟩
  · intro i p hwf
    cases hl : lookupM i.Products p.ID with
    | some q => simpa [Inventory.AddProduct, hl] using hwf
    | none =>
        obtain ⟨hkeys, hids⟩ := hwf
        have h1 : (i.AddProduct p).1 = ⟨insertM i.Products p.ID p⟩ := by
          simp [Inventory.AddProduct, hl]
        rw [h1]
        unfold Inventory.WF
        rw [insertM_of_not_mem i.Products p.ID p hl]
        constructor
        · rw [List.map_append, List.nodup_append]
          exact ⟨hkeys, List.nodup_singleton _,
            List.disjoint_singleton.mpr ((lookupM_eq_none_iff _ _).mp hl)⟩
        · intro e he
          rcases List.mem_append.mp he with h | h
          · exact hids e h
          · simp only [List.mem_singleton] at h
            subst h
            rfl
  · intro i id hwf
    cases hl : lookupM i.Products id with
    | none => simpa [Inventory.RemoveProduct, hl] using hwf
    | some q =>
        obtain ⟨hkeys, hids⟩ := hwf
        have h1 : (i.RemoveProduct id).1 = ⟨eraseM i.Products id⟩ := by
          simp [Inventory.RemoveProduct, hl]
        rw [h1]
        exact ⟨nodup_keys_eraseM _ _ hkeys, fun e he => hids e (mem_eraseM _ _ _ he)⟩

/-- C2: for every product `p` with `p.Quantity = q` and every integer `n`:
    when `n ≤ q`, `Sell(n)` returns success and afterwards
    `p.Quantity = q - n` with all other fields unchanged; when `n > q`,
    `Sell(n)` returns `ErrInsufficientStock` and `p` is unchanged. -/
theorem sell_spec (p : Product) (n : Int) :
    (n ≤ p.Quantity →
      (p.Sell n).2 = none ∧
      (p.Sell n).1.Quantity = p.Quantity - n ∧
      (p.Sell n).1.ID = p.ID ∧ (p.Sell n).1.Name = p.Name ∧
      (p.Sell n).1.Price = p.Price ∧ (p.Sell n).1.Category = p.Category) ∧
    (p.Quantity < n → p.Sell n = (p, some PErr.insufficientStock)) := by
  constructor
  · intro h
    simp [Product.Sell, not_lt.mpr h]
  · intro h
    simp [Product.Sell, h]

/-- Witness for C2: a product with quantity 10 sells 3 successfully
    (leaving 7), and selling 20 fails with `InsufficientStock`. -/
theorem sell_spec_witness :
    ((3 : Int) ≤ (Product.mk 1 "Widget" 10 10 "Tools").Quantity ∧
      ((Product.mk 1 "Widget" 10 10 "Tools").Sell 3).2 = none ∧
      ((Product.mk 1 "Widget" 10 10 "Tools").Sell 3).1.Quantity =
        (Product.mk 1 "Widget" 10 10 "Tools").Quantity - 3 ∧
      ((Product.mk 1 "Widget" 10 10 "Tools").Sell 3).1.ID =
        (Product.mk 1 "Widget" 10 10 "Tools").ID ∧
      ((Product.mk 1 "Widget" 10 10 "Tools").Sell 3).1.Name =
        (Product.mk 1 "Widget" 10 10 "Tools").Name ∧
      ((Product.mk 1 "Widget" 10 10 "Tools").Sell 3).1.Price =
        (Product.mk 1 "Widget" 10 10 "Tools").Price ∧
      ((Product.mk 1 "Widget" 10 10 "Tools").Sell 3).1.Category =
        (Product.mk 1 "Widget" 10 10 "Tools").Category) ∧
    ((Product.mk 1 "Widget" 10 10 "Tools").Quantity < 20 ∧
      (Product.mk 1 "Widget" 10 10 "Tools").Sell 20 =
        (Product.mk 1 "Widget" 10 10 "Tools", some PErr.insufficientStock)) :=
  ⟨⟨by decide, (sell_spec (Product.mk 1 "Widget" 10 10 "Tools") 3).1 (by decide)⟩,
   ⟨by decide, (sell_spec (Product.mk 1 "Widget" 10 10 "Tools") 20).2 (by decide)⟩⟩

/-- C9: `Restock(n)` then `Restock(m)` equals `Restock(n+m)`, restocks in
    either order agree, and `Restock` changes only `Quantity`
    (by exactly the argument). -/
theorem restock_additive (p : Product) (n m : Int) :
    (p.Restock n).Restock m = p.Restock (n + m) ∧
    (p.Restock n).Restock m = (p.Restock m).Restock n ∧
    (p.Restock n).Quantity = p.Quantity + n ∧
    (p.Restock n).ID = p.ID ∧ (p.Restock n).Name = p.Name ∧
    (p.Restock n).Price = p.Price ∧ (p.Restock n).Category = p.Category := by
  refine ⟨?_, ?_, rfl, rfl, rfl, rfl, rfl⟩ <;>
    simp [Product.Restock, Product.mk.injEq] <;> omega

/-- C3 counterexample: the claim "Quantity stays non-negative after any
    sequence of Sell/Restock/UpdatePrice with any arguments" is false:
    `Restock(-1)` on a product with `Quantity = 0` yields `Quantity = -1`. -/
theorem quantity_nonneg_counterexample :
    ¬ (∀ p : Product, 0 ≤ p.Quantity →
        ∀ ops : List ProdOp, 0 ≤ (applyOps ops p).Quantity) := by
  intro h
  exact absurd
    (h (Product.mk 1 "Widget" 10 0 "Tools") (by decide) [ProdOp.restock (-1)])
    (by decide)

/-- C3 amended: starting from a non-negative quantity, any sequence of
    `Sell`, `UpdatePrice` (any arguments) and `Restock` restricted to
    non-negative arguments keeps `Quantity ≥ 0`. -/
theorem quantity_nonneg_of_restock_nonneg (ops : List ProdOp) :
    ∀ p : Product, 0 ≤ p.Quantity →
      (∀ n : Int, ProdOp.restock n ∈ ops → 0 ≤ n) →
      0 ≤ (applyOps ops p).Quantity := by
  induction ops with
  | nil =>
      intro p hp _
      simpa [applyOps] using hp
  | cons op rest ih =>
      intro p hp hops
      have hstep : 0 ≤ (applyOp p op).Quantity := by
        cases op with
        | sell n =>
            by_cases h : p.Quantity < n
            · simpa [applyOp, Product.Sell, h] using hp
            · simp only [applyOp, Product.Sell, h, if_neg h]
              simp
              omega
        | restock n =>
            have hn := hops n (List.mem_cons_self _ _)
            simp [applyOp, Product.Restock]
            omega
        | updatePrice x =>
            simpa [applyOp, Product.UpdatePrice] using hp
      have hrw : applyOps (op :: rest) p = applyOps rest (applyOp p op) := rfl
      rw [hrw]
      exact ih (applyOp p op) hstep (fun n hn => hops n (List.mem_cons_of_mem _ hn))

/-- Witness for the amended C3: quantity 0, then `Sell(1)` (which fails
    and changes nothing) and `Restock(5)` leave a non-negative quantity. -/
theorem quantity_nonneg_of_restock_nonneg_witness :
    0 ≤ (Product.mk 1 "Widget" 10 0 "Tools").Quantity ∧
    (∀ n : Int, ProdOp.restock n ∈ [ProdOp.sell 1, ProdOp.restock 5] → 0 ≤ n) ∧
    0 ≤ (applyOps [ProdOp.sell 1, ProdOp.restock 5]
          (Product.mk 1 "Widget" 10 0 "Tools")).Quantity := by
  have hops : ∀ n : Int, ProdOp.restock n ∈ [ProdOp.sell 1, ProdOp.restock 5] → 0 ≤ n := by
    intro n hn
    simp only [List.mem_cons, List.mem_singleton] at hn
    rcases hn with h | h | h
    · cases h
    · cases h; decide
    · cases h
  exact ⟨by decide, hops,
    quantity_nonneg_of_restock_nonneg _ _ (by decide) hops⟩

/-- C6: `AddProduct(p)` fails with `ProductAlreadyExists` and leaves the
    inventory unchanged when `p.ID` is present; otherwise it succeeds,
    afterwards the inventory maps `p.ID` to `p` with all other entries
    unchanged, and adding the same ID again fails. -/
theorem addProduct_spec (i : Inventory) (p : Product) :
    (∀ q, lookupM i.Products p.ID = some q →
        i.AddProduct p = (i, some PErr.productAlreadyExists)) ∧
    (lookupM i.Products p.ID = none →
        (i.AddProduct p).2 = none ∧
        lookupM (i.AddProduct p).1.Products p.ID = some p ∧
        (∀ k, k ≠ p.ID → lookupM (i.AddProduct p).1.Products k = lookupM i.Products k) ∧
        (i.AddProduct p).1.AddProduct p =
          ((i.AddProduct p).1, some PErr.productAlreadyExists)) := by
  constructor
  · intro q hq
    simp [Inventory.AddProduct, hq]
  · intro hnone
    have h1 : i.AddProduct p = (⟨insertM i.Products p.ID p⟩, none) := by
      simp [Inventory.AddProduct, hnone]
    refine ⟨by simp [h1], ?_, ?_, ?_⟩
    · rw [h1]
      exact lookupM_insertM_self i.Products p.ID p
    · intro k hk
      rw [h1]
      exact lookupM_insertM_ne i.Products p.ID p k hk
    · rw [h1]
      simp [Inventory.AddProduct, lookupM_insertM_self]

/-- Witness for C6: adding ID 1 to the empty inventory succeeds, stores
    the product, leaves key 2 unbound, and a second add of ID 1 fails. -/
theorem addProduct_spec_witness :
    lookupM (Inventory.mk []).Products (Product.mk 1 "A" 5 2 "C").ID = none ∧
    ((Inventory.mk []).AddProduct (Product.mk 1 "A" 5 2 "C")).2 = none ∧
    lookupM ((Inventory.mk []).AddProduct (Product.mk 1 "A" 5 2 "C")).1.Products
      (Product.mk 1 "A" 5 2 "C").ID = some (Product.mk 1 "A" 5 2 "C") ∧
    (∀ k, k ≠ (Product.mk 1 "A" 5 2 "C").ID →
      lookupM ((Inventory.mk []).AddProduct (Product.mk 1 "A" 5 2 "C")).1.Products k =
        lookupM (Inventory.mk []).Products k) ∧
    ((Inventory.mk []).AddProduct (Product.mk 1 "A" 5 2 "C")).1.AddProduct
        (Product.mk 1 "A" 5 2 "C") =
      (((Inventory.mk []).AddProduct (Product.mk 1 "A" 5 2 "C")).1,
        some PErr.productAlreadyExists) :=
  ⟨by decide, (addProduct_spec (Inventory.mk []) (Product.mk 1 "A" 5 2 "C")).2 (by decide)⟩

/-- C5: the `MemoryStorage` contract. `Save(p)` upserts by ID and returns
    success, leaving other keys unchanged; `GetByID(id)` returns the stored
    product exactly when present and `ProductNotFound` exactly when absent;
    `Delete(id)` fails with `ProductNotFound` exactly when absent and
    otherwise removes the entry, leaving other entries unchanged. -/
theorem memoryStorage_contract (m : MemoryStorage) (p : Product) (id k : Int) :
    ((m.Save p).2 = none ∧
     lookupM (m.Save p).1.Products p.ID = some p ∧
     (k ≠ p.ID → lookupM (m.Save p).1.Products k = lookupM m.Products k)) ∧
    ((∀ q, lookupM m.Products id = some q → m.GetByID id = (some q, none)) ∧
     (lookupM m.Products id = none → m.GetByID id = (none, some PErr.productNotFound))) ∧
    ((lookupM m.Products id = none → m.Delete id = (m, some PErr.productNotFound)) ∧
     (∀ q, lookupM m.Products id = some q →
        (m.Delete id).2 = none ∧
        lookupM (m.Delete id).1.Products id = none ∧
        (k ≠ id → lookupM (m.Delete id).1.Products k = lookupM m.Products k))) := by
  refine ⟨⟨rfl, ?_, ?_⟩, ⟨?_, ?_⟩, ⟨?_, ?_⟩⟩
  · exact lookupM_insertM_self m.Products p.ID p
  · intro hk
    exact lookupM_insertM_ne m.Products p.ID p k hk
  · intro q hq
    simp [MemoryStorage.GetByID, hq]
  · intro hnone
    simp [MemoryStorage.GetByID, hnone]
  · intro hnone
    simp [MemoryStorage.Delete, hnone]
  · intro q hq
    have h1 : m.Delete id = (⟨eraseM m.Products id⟩, none) := by
      simp [MemoryStorage.Delete, hq]
    refine ⟨by simp [h1], ?_, ?_⟩
    · rw [h1]
      exact lookupM_eraseM_self m.Products id
    · intro hk
      rw [h1]
      exact lookupM_eraseM_ne m.Products id k hk

/-- Witness for C5, on the store `{7 ↦ B}`: saving `A` under 1 stores it
    and leaves key 7 alone; `GetByID 7` hits, `GetByID`/`Delete` honour the
    present key 7; `Delete 7` removes it. -/
theorem memoryStorage_contract_witness :
    (((MemoryStorage.mk [(7, Product.mk 7 "B" 3 1 "D")]).Save (Product.mk 1 "A" 5 2 "C")).2 = none ∧
      lookupM ((MemoryStorage.mk [(7, Product.mk 7 "B" 3 1 "D")]).Save
        (Product.mk 1 "A" 5 2 "C")).1.Products (Product.mk 1 "A" 5 2 "C").ID =
        some (Product.mk 1 "A" 5 2 "C") ∧
      ((9 : Int) ≠ (Product.mk 1 "A" 5 2 "C").ID ∧
        lookupM ((MemoryStorage.mk [(7, Product.mk 7 "B" 3 1 "D")]).Save
          (Product.mk 1 "A" 5 2 "C")).1.Products 9 =
          lookupM (MemoryStorage.mk [(7, Product.mk 7 "B" 3 1 "D")]).Products 9)) ∧
    (lookupM (MemoryStorage.mk [(7, Product.mk 7 "B" 3 1 "D")]).Products 7 =
        some (Product.mk 7 "B" 3 1 "D") ∧
      (MemoryStorage.mk [(7, Product.mk 7 "B" 3 1 "D")]).GetByID 7 =
        (some (Product.mk 7 "B" 3 1 "D"), none)) ∧
    (((MemoryStorage.mk [(7, Product.mk 7 "B" 3 1 "D")]).Delete 7).2 = none ∧
      lookupM ((MemoryStorage.mk [(7, Product.mk 7 "B" 3 1 "D")]).Delete 7).1.Products 7 = none ∧
      ((9 : Int) ≠ 7 ∧
        lookupM ((MemoryStorage.mk [(7, Product.mk 7 "B" 3 1 "D")]).Delete 7).1.Products 9 =
          lookupM (MemoryStorage.mk [(7, Product.mk 7 "B" 3 1 "D")]).Products 9)) := by
  have h := memoryStorage_contract (MemoryStorage.mk [(7, Product.mk 7 "B" 3 1 "D")])
    (Product.mk 1 "A" 5 2 "C") 7 9
  refine ⟨⟨h.1.1, h.1.2.1, by decide, h.1.2.2 (by decide)⟩,
    ⟨by decide, h.2.1.1 (Product.mk 7 "B" 3 1 "D") (by decide)⟩, ?_⟩
  have hd := h.2.2.2 (Product.mk 7 "B" 3 1 "D") (by decide)
  exact ⟨hd.1, hd.2.1, by decide, hd.2.2 (by decide)⟩

/-- C4: `MockDatabaseStorage.GetByID`/`Delete` with the failure draw
    explicit: a triggered draw yields the operation-specific transient
    error (`FailedToGet`/`FailedToDelete`) regardless of key presence,
    with the store unchanged; a non-triggered draw proceeds to the normal
    not-found/success logic; the transient errors are distinct values from
    `ProductNotFound`; and on any error the store is unchanged. -/
theorem mockDatabaseStorage_transient_spec (mds : MockDatabaseStorage) (id : Int) :
    (mds.GetByID id true = (mds, none, some PErr.failedToGetProduct) ∧
     mds.Delete id true = (mds, some PErr.failedToDeleteProduct)) ∧
    ((∀ q, lookupM mds.store id = some q → mds.GetByID id false = (mds, some q, none)) ∧
     (lookupM mds.store id = none →
        mds.GetByID id false = (mds, none, some PErr.productNotFound)) ∧
     (lookupM mds.store id = none →
        mds.Delete id false = (mds, some PErr.productNotFound)) ∧
     (∀ q, lookupM mds.store id = some q →
        mds.Delete id false = (⟨eraseM mds.store id⟩, none))) ∧
    (PErr.failedToGetProduct ≠ PErr.productNotFound ∧
     PErr.failedToDeleteProduct ≠ PErr.productNotFound) ∧
    ((∀ b, (mds.GetByID id b).1 = mds) ∧
     (∀ b, (mds.Delete id b).2 ≠ none → (mds.Delete id b).1 = mds)) := by
  refine ⟨⟨rfl, rfl⟩, ⟨?_, ?_, ?_, ?_⟩, ⟨by decide, by decide⟩, ⟨?_, ?_⟩⟩
  · intro q hq
    simp [MockDatabaseStorage.GetByID, hq]
  · intro hnone
    simp [MockDatabaseStorage.GetByID, hnone]
  · intro hnone
    simp [MockDatabaseStorage.Delete, hnone]
  · intro q hq
    simp [MockDatabaseStorage.Delete, hq]
  · intro b
    cases b with
    | true => rfl
    | false =>
        cases hq : lookupM mds.store id <;> simp [MockDatabaseStorage.GetByID, hq]
  · intro b
    cases b with
    | true => intro _; rfl
    | false =>
        cases hq : lookupM mds.store id with
        | none => intro _; simp [MockDatabaseStorage.Delete, hq]
        | some q => simp [MockDatabaseStorage.Delete, hq]

/-- Witness for C4 on the store `{4 ↦ E}` at the present key 4 and the
    absent key 5: triggered draws fail with the transient errors; clean
    draws hit key 4 and report `ProductNotFound` for key 5. -/
theorem mockDatabaseStorage_transient_spec_witness :
    ((MockDatabaseStorage.mk [(4, Product.mk 4 "E" 2 6 "C")]).GetByID 4 true =
        (MockDatabaseStorage.mk [(4, Product.mk 4 "E" 2 6 "C")], none,
          some PErr.failedToGetProduct) ∧
      (MockDatabaseStorage.mk [(4, Product.mk 4 "E" 2 6 "C")]).Delete 4 true =
        (MockDatabaseStorage.mk [(4, Product.mk 4 "E" 2 6 "C")],
          some PErr.failedToDeleteProduct)) ∧
    (lookupM (MockDatabaseStorage.mk [(4, Product.mk 4 "E" 2 6 "C")]).store 4 =
        some (Product.mk 4 "E" 2 6 "C") ∧
      (MockDatabaseStorage.mk [(4, Product.mk 4 "E" 2 6 "C")]).GetByID 4 false =
        (MockDatabaseStorage.mk [(4, Product.mk 4 "E" 2 6 "C")],
          some (Product.mk 4 "E" 2 6 "C"), none)) ∧
    (lookupM (MockDatabaseStorage.mk [(4, Product.mk 4 "E" 2 6 "C")]).store 5 = none ∧
      (MockDatabaseStorage.mk [(4, Product.mk 4 "E" 2 6 "C")]).Delete 5 false =
        (MockDatabaseStorage.mk [(4, Product.mk 4 "E" 2 6 "C")],
          some PErr.productNotFound)) := by
  refine ⟨(mockDatabaseStorage_transient_spec
      (MockDatabaseStorage.mk [(4, Product.mk 4 "E" 2 6 "C")]) 4).1, ⟨by decide, ?_⟩, by decide,
    (mockDatabaseStorage_transient_spec
      (MockDatabaseStorage.mk [(4, Product.mk 4 "E" 2 6 "C")]) 5).2.1.2.2.1 (by decide)⟩
  exact (mockDatabaseStorage_transient_spec
      (MockDatabaseStorage.mk [(4, Product.mk 4 "E" 2 6 "C")]) 4).2.1.1
    (Product.mk 4 "E" 2 6 "C") (by decide)

/-- C7: on a well-formed inventory, `ListByCategory(c)` returns exactly
    the stored products whose `Category` is `c` — no duplicates, no
    omissions, no other categories — and the empty list (not an error)
    when none match. -/
theorem listByCategory_spec (i : Inventory) (c : String) (hwf : i.WF) :
    (i.ListByCategory c).Nodup ∧
    (∀ p : Product, p ∈ i.ListByCategory c ↔
        (∃ k, (k, p) ∈ i.Products) ∧ p.Category = c) ∧
    ((∀ e ∈ i.Products, e.2.Category ≠ c) → i.ListByCategory c = []) := by
  obtain ⟨hkeys, hids⟩ := hwf
  have hvals : (i.Products.map Prod.snd).Nodup := by
    have hmap : (i.Products.map Prod.snd).map Product.ID = i.Products.map Prod.fst := by
      rw [List.map_map]
      exact List.map_congr_left (fun e he => hids e he)
    exact List.Nodup.of_map Product.ID (hmap ▸ hkeys)
  refine ⟨hvals.filter _, ?_, ?_⟩
  · intro p
    simp only [Inventory.ListByCategory, List.mem_filter, List.mem_map,
      decide_eq_true_eq]
    constructor
    · rintro ⟨⟨⟨k, v⟩, hmem, rfl⟩, hcat⟩
      exact ⟨⟨k, hmem⟩, hcat⟩
    · rintro ⟨⟨k, hk⟩, hcat⟩
      exact ⟨⟨(k, p), hk, rfl⟩, hcat⟩
  · intro hnone
    rw [Inventory.ListByCategory, List.filter_eq_nil_iff]
    intro p hp
    obtain ⟨⟨k, v⟩, hmem, rfl⟩ := List.mem_map.mp hp
    simpa using hnone (k, v) hmem

/-- Witness for C7 on the inventory `{1 ↦ P1(cat X), 2 ↦ P2(cat Y), 3 ↦ P3(cat X)}`. -/
theorem listByCategory_spec_witness :
    (Inventory.mk [(1, Product.mk 1 "P1" 1 1 "X"), (2, Product.mk 2 "P2" 2 2 "Y"),
        (3, Product.mk 3 "P3" 3 3 "X")]).WF ∧
    ((Inventory.mk [(1, Product.mk 1 "P1" 1 1 "X"), (2, Product.mk 2 "P2" 2 2 "Y"),
        (3, Product.mk 3 "P3" 3 3 "X")]).ListByCategory "X").Nodup ∧
    ((Product.mk 1 "P1" 1 1 "X") ∈
        (Inventory.mk [(1, Product.mk 1 "P1" 1 1 "X"), (2, Product.mk 2 "P2" 2 2 "Y"),
          (3, Product.mk 3 "P3" 3 3 "X")]).ListByCategory "X" ↔
      (∃ k, (k, Product.mk 1 "P1" 1 1 "X") ∈
          (Inventory.mk [(1, Product.mk 1 "P1" 1 1 "X"), (2, Product.mk 2 "P2" 2 2 "Y"),
            (3, Product.mk 3 "P3" 3 3 "X")]).Products) ∧
        (Product.mk 1 "P1" 1 1 "X").Category = "X") := by
  have h := listByCategory_spec
    (Inventory.mk [(1, Product.mk 1 "P1" 1 1 "X"), (2, Product.mk 2 "P2" 2 2 "Y"),
      (3, Product.mk 3 "P3" 3 3 "X")]) "X" (by decide)
  exact ⟨by decide, h.1, h.2.1 (Product.mk 1 "P1" 1 1 "X")⟩

/-- The running-total loop of `TotalValue`, as a fold, computes the sum of
    the per-product values. -/
theorem foldl_add_eq_sum (f : Product → ℚ) (l : List Product) (init : ℚ) :
    l.foldl (fun t p => t + f p) init = init + (l.map f).sum := by
  induction l generalizing init with
  | nil => simp
  | cons a l ih => simp [ih, add_assoc]

/-- C8: `TotalValue()` equals the sum over all stored products of
    `Price × Quantity`, is `0` on the empty inventory, and is `40` on
    `{(price 10, qty 2), (price 20, qty 1)}`. -/
theorem totalValue_spec (i : Inventory) :
    i.TotalValue =
      ((i.Products.map Prod.snd).map (fun p => p.Price * (p.Quantity : ℚ))).sum ∧
    Inventory.TotalValue ⟨[]⟩ = 0 ∧
    Inventory.TotalValue
      ⟨[(1, Product.mk 1 "P1" 10 2 "C"), (2, Product.mk 2 "P2" 20 1 "C")]⟩ = 40 := by
  refine ⟨?_, rfl, by norm_num [Inventory.TotalValue]⟩
  rw [Inventory.TotalValue, foldl_add_eq_sum]
  simp

/-- Helper: `FetchProductDetails` only ever succeeds with a product carrying the
    requested ID. -/
theorem fetchProductDetails_id_eq (id : Int) (d : FetchDraw) (p : Product)
    (h : FetchProductDetails id d = some p) : p.ID = id := by
  unfold FetchProductDetails at h
  split at h
  · cases h
  · cases h
    rfl

/-- A `filterMap` keeps exactly the elements on which the function
    succeeds: its length is the count of successes. -/
theorem length_filterMap_eq_countP {α β : Type} (f : α → Option β) (l : List α) :
    (l.filterMap f).length = l.countP (fun a => (f a).isSome) := by
  induction l with
  | nil => rfl
  | cons a l ih =>
      cases h : f a <;> simp [List.filterMap_cons, h, List.countP_cons, ih]

/-- C1: for every ID list and every per-ID fetch oracle,
    `FetchProductsConcurrently` returns at most `N` products, every
    returned product carries a requested ID, the result consists exactly
    of the successful fetches (membership iff some requested ID fetched
    that product, and length = number of successful draws), and failures
    are silently dropped (the return type carries no error). -/
theorem fetchProductsConcurrently_spec (draws : Int → FetchDraw) (ids : List Int) :
    (FetchProductsConcurrently draws ids).length ≤ ids.length ∧
    (∀ p ∈ FetchProductsConcurrently draws ids, p.ID ∈ ids) ∧
    (∀ p, p ∈ FetchProductsConcurrently draws ids ↔
        ∃ id ∈ ids, FetchProductDetails id (draws id) = some p) ∧
    (FetchProductsConcurrently draws ids).length =
      ids.countP (fun id => (FetchProductDetails id (draws id)).isSome) := by
  refine ⟨List.length_filterMap_le _ _, ?_, ?_, length_filterMap_eq_countP _ _⟩
  · intro p hp
    rw [FetchProductsConcurrently, List.mem_filterMap] at hp
    obtain ⟨id, hid, hfetch⟩ := hp
    rw [fetchProductDetails_id_eq id (draws id) p hfetch]
    exact hid
  · intro p
    rw [FetchProductsConcurrently, List.mem_filterMap]

/-- Witness for C1: with an oracle failing exactly on ID 2, the batch
    `[1, 2, 3]` yields the fetched product for ID 1, whose ID is requested. -/
theorem fetchProductsConcurrently_spec_witness :
    (Product.mk 1 "Product 1" 5 7 "Category") ∈
      FetchProductsConcurrently
        (fun id => FetchDraw.mk (decide (id = 2)) 5 7) [1, 2, 3] ∧
    (Product.mk 1 "Product 1" 5 7 "Category").ID ∈ [(1 : Int), 2, 3] :=
  ⟨by decide,
    (fetchProductsConcurrently_spec
        (fun id => FetchDraw.mk (decide (id = 2)) 5 7) [1, 2, 3]).2.1
      (Product.mk 1 "Product 1" 5 7 "Category") (by decide)⟩

/-- C10: both lookups return a pointer to a fresh copy of the matching
    entry: the lookup leaves the container unchanged, the cell holds the
    looked-up product, and writing any product through the pointer changes
    that cell but not the container. -/
theorem lookup_returns_copy (s : InvPtrState) (t : StorePtrState) (name : String)
    (id : Int) (q : Product) (r r' : Nat)
    (h : (findProductByNameRef s name).1 = some r)
    (h' : (getByIDRef t id).1 = some r') :
    ((findProductByNameRef s name).2.inv = s.inv ∧
     ((findProductByNameRef s name).2.heap)[r]? = (s.inv.FindProductByName name).1 ∧
     (writeInvRef (findProductByNameRef s name).2 r q).inv = s.inv ∧
     ((writeInvRef (findProductByNameRef s name).2 r q).heap)[r]? = some q) ∧
    ((getByIDRef t id).2.mem = t.mem ∧
     ((getByIDRef t id).2.heap)[r']? = (t.mem.GetByID id).1 ∧
     (writeStoreRef (getByIDRef t id).2 r' q).mem = t.mem ∧
     ((writeStoreRef (getByIDRef t id).2 r' q).heap)[r']? = some q) := by
  constructor
  · cases hf : (s.inv.FindProductByName name).1 with
    | none => simp [findProductByNameRef, hf] at h
    | some p =>
        have hstep : findProductByNameRef s name =
            (some s.heap.length, ⟨s.inv, s.heap ++ [p]⟩) := by
          simp [findProductByNameRef, hf]
        rw [hstep] at h ⊢
        cases h
        refine ⟨rfl, ?_, rfl, ?_⟩
        · exact List.getElem?_concat_length _ _
        · show ((s.heap ++ [p]).set s.heap.length q)[s.heap.length]? = some q
          rw [List.getElem?_set_eq_of_lt]
          simp
  · cases hg : (t.mem.GetByID id).1 with
    | none => simp [getByIDRef, hg] at h'
    | some p =>
        have hstep : getByIDRef t id =
            (some t.heap.length, ⟨t.mem, t.heap ++ [p]⟩) := by
          simp [getByIDRef, hg]
        rw [hstep] at h' ⊢
        cases h'
        refine ⟨rfl, ?_, rfl, ?_⟩
        · exact List.getElem?_concat_length _ _
        · show ((t.heap ++ [p]).set t.heap.length q)[t.heap.length]? = some q
          rw [List.getElem?_set_eq_of_lt]
          simp

/-- Witness for C10 on a one-entry inventory (name "A" at ID 1) and a
    one-entry store (ID 2), writing an unrelated product through the
    returned pointers. -/
theorem lookup_returns_copy_witness :
    (findProductByNameRef
        (InvPtrState.mk (Inventory.mk [(1, Product.mk 1 "A" 5 2 "C")]) []) "A").1 =
      some 0 ∧
    (getByIDRef
        (StorePtrState.mk (MemoryStorage.mk [(2, Product.mk 2 "B" 7 3 "D")]) []) 2).1 =
      some 0 ∧
    (((findProductByNameRef
          (InvPtrState.mk (Inventory.mk [(1, Product.mk 1 "A" 5 2 "C")]) []) "A").2.inv =
        Inventory.mk [(1, Product.mk 1 "A" 5 2 "C")] ∧
      ((findProductByNameRef
          (InvPtrState.mk (Inventory.mk [(1, Product.mk 1 "A" 5 2 "C")]) []) "A").2.heap)[(0 : Nat)]? =
        ((Inventory.mk [(1, Product.mk 1 "A" 5 2 "C")]).FindProductByName "A").1 ∧
      (writeInvRef (findProductByNameRef
          (InvPtrState.mk (Inventory.mk [(1, Product.mk 1 "A" 5 2 "C")]) []) "A").2 0
          (Product.mk 9 "Z" 0 0 "Z")).inv =
        Inventory.mk [(1, Product.mk 1 "A" 5 2 "C")] ∧
      ((writeInvRef (findProductByNameRef
          (InvPtrState.mk (Inventory.mk [(1, Product.mk 1 "A" 5 2 "C")]) []) "A").2 0
          (Product.mk 9 "Z" 0 0 "Z")).heap)[(0 : Nat)]? = some (Product.mk 9 "Z" 0 0 "Z")) ∧
     ((getByIDRef
          (StorePtrState.mk (MemoryStorage.mk [(2, Product.mk 2 "B" 7 3 "D")]) []) 2).2.mem =
        MemoryStorage.mk [(2, Product.mk 2 "B" 7 3 "D")] ∧
      ((getByIDRef
          (StorePtrState.mk (MemoryStorage.mk [(2, Product.mk 2 "B" 7 3 "D")]) []) 2).2.heap)[(0 : Nat)]? =
        ((MemoryStorage.mk [(2, Product.mk 2 "B" 7 3 "D")]).GetByID 2).1 ∧
      (writeStoreRef (getByIDRef
          (StorePtrState.mk (MemoryStorage.mk [(2, Product.mk 2 "B" 7 3 "D")]) []) 2).2 0
          (Product.mk 9 "Z" 0 0 "Z")).mem =
        MemoryStorage.mk [(2, Product.mk 2 "B" 7 3 "D")] ∧
      ((writeStoreRef (getByIDRef
          (StorePtrState.mk (MemoryStorage.mk [(2, Product.mk 2 "B" 7 3 "D")]) []) 2).2 0
          (Product.mk 9 "Z" 0 0 "Z")).heap)[(0 : Nat)]? = some (Product.mk 9 "Z" 0 0 "Z"))) :=
  ⟨by decide, by decide,
    lookup_returns_copy
      (InvPtrState.mk (Inventory.mk [(1, Product.mk 1 "A" 5 2 "C")]) [])
      (StorePtrState.mk (MemoryStorage.mk [(2, Product.mk 2 "B" 7 3 "D")]) [])
      "A" 2 (Product.mk 9 "Z" 0 0 "Z") 0 0 (by decide) (by decide)⟩

end ProductCatalog
